import Mathlib

/-
Shallow embedding of the NES CPU emulation core (`src/cpu.rs`).

Conventions of the embedding:
- `u8` and `u16` values are `Nat` with explicit `% 256` / masking where the
  source relies on wrapping or casts (`wrapping_add`, `as u8`).
- The backing store `memory: [u8; 0xFFFF]` is a function `Nat → Nat` guarded
  by the constant `MEM_SIZE = 0xFFFF`: a Rust index panic (out of bounds)
  is modelled as `none` / `RtError.outOfBounds`.
- The `todo!()` placeholder reached on an unrecognized opcode is a Rust
  panic carrying no data; it is modelled as `RtError.unimplemented`,
  a payload-free error.
- The `loop` in `CPU::execute` is modelled with explicit fuel; running out
  of fuel yields `ExecResult.timeout`, distinct from halting and faulting.
-/

/-- Size of the memory backing store: the source declares
`memory: [u8; 0xFFFF]`, an array of 0xFFFF = 2^16 - 1 bytes. -/
def MEM_SIZE : Nat := 0xFFFF

/-- Machine state mirroring `pub struct CPU`: accumulator `register_a`,
index registers `register_x` / `register_y`, status bitfield
`processor_status`, 16-bit `program_counter`, and the memory array. -/
structure CPU where
  register_a : Nat
  register_x : Nat
  register_y : Nat
  processor_status : Nat
  program_counter : Nat
  memory : Nat → Nat

/-- CPU::new — every register and all of memory zeroed. -/
def CPU.new : CPU :=
  { register_a := 0
    register_x := 0
    register_y := 0
    processor_status := 0
    program_counter := 0
    memory := fun _ => 0 }

/-- Memory::memory_read — `self.memory[addr as usize]`; indexing past the
end of the 0xFFFF-byte array panics in Rust, modelled as `none`. -/
def memory_read (c : CPU) (addr : Nat) : Option Nat :=
  if addr < MEM_SIZE then some (c.memory addr) else none

/-- Memory::memory_write — `self.memory[addr as usize] = data`; the `% 256`
embeds the `u8` type of `data`. -/
def memory_write (c : CPU) (addr data : Nat) : Option CPU :=
  if addr < MEM_SIZE then
    some { c with memory := fun a => if a = addr then data % 256 else c.memory a }
  else
    none

/-- Memory::memory_read_u16 — `lo = read(pos)`, `hi = read(pos + 1)`,
result `(hi << 8) | lo`. -/
def memory_read_u16 (c : CPU) (pos : Nat) : Option Nat :=
  match memory_read c pos, memory_read c (pos + 1) with
  | some lo, some hi => some ((hi <<< 8) ||| lo)
  | _, _ => none

/-- Memory::memory_write_u16 — `hi = (data >> 8) as u8`, `lo = (data & 0xff) as u8`,
write `lo` at `pos` and `hi` at `pos + 1`. -/
def memory_write_u16 (c : CPU) (pos data : Nat) : Option CPU :=
  let hi := (data >>> 8) % 256
  let lo := data &&& 0xff
  match memory_write c pos lo with
  | some c1 => memory_write c1 (pos + 1) hi
  | none => none

/-- Status byte produced by `CPU::update_zero_and_negative_flags` from the
old status `s` and the result byte `r`: the first `if` handles the Zero
flag (bit 1), the second the Negative flag (bit 7). -/
def flagsByte (s r : Nat) : Nat :=
  let s1 := if r = 0 then s ||| 0b0000010 else s &&& 0b11111101
  if r &&& 0b10000000 ≠ 0 then s1 ||| 0b10000000 else s1 &&& 0b01111111

/-- CPU::update_zero_and_negative_flags — recompute Zero and Negative from
`result`, leaving every other field alone. -/
def update_zero_and_negative_flags (c : CPU) (result : Nat) : CPU :=
  { c with processor_status := flagsByte c.processor_status result }

/-- CPU::lda — `register_a = value`, then update flags from `register_a`. -/
def lda (c : CPU) (value : Nat) : CPU :=
  let c1 := { c with register_a := value }
  update_zero_and_negative_flags c1 c1.register_a

/-- CPU::tax — `register_x = register_a`, then update flags from `register_x`. -/
def tax (c : CPU) : CPU :=
  let c1 := { c with register_x := c.register_a }
  update_zero_and_negative_flags c1 c1.register_x

/-- CPU::inx — `register_x = register_x.wrapping_add(1)` (the `% 256` is the
wrap), then update flags from `register_x`. -/
def inx (c : CPU) : CPU :=
  let c1 := { c with register_x := (c.register_x + 1) % 256 }
  update_zero_and_negative_flags c1 c1.register_x

/-- Runtime failure of the emulated core. `outOfBounds` is a Rust index /
slice panic; `unimplemented` is the `todo!()` panic, which carries no
payload — in particular neither the opcode nor the pointer. -/
inductive RtError where
  | outOfBounds
  | unimplemented
deriving DecidableEq

/-- Outcome of running `CPU::execute` with a given amount of fuel. -/
inductive ExecResult where
  | halted (c : CPU)
  | fault (e : RtError)
  | timeout

/-- CPU::execute — the fetch/decode/execute loop. Each iteration fetches the
opcode at `program_counter`, advances the pointer, and dispatches; the
operand fetch of opcode 0xA9 is `self.memory[self.program_counter as usize]`,
which is exactly `memory_read`. -/
def execute : Nat → CPU → ExecResult
  | 0, _ => ExecResult.timeout
  | fuel + 1, c =>
    match memory_read c c.program_counter with
    | none => ExecResult.fault RtError.outOfBounds
    | some opscode =>
      let c1 := { c with program_counter := c.program_counter + 1 }
      if opscode = 0xA9 then
        match memory_read c1 c1.program_counter with
        | none => ExecResult.fault RtError.outOfBounds
        | some param =>
          let c2 := { c1 with program_counter := c1.program_counter + 1 }
          execute fuel (lda c2 param)
      else if opscode = 0xAA then
        execute fuel (tax c1)
      else if opscode = 0xE8 then
        execute fuel (inx c1)
      else if opscode = 0x00 then
        ExecResult.halted c1
      else
        ExecResult.fault RtError.unimplemented

/-- Memory contents after the slice copy
`self.memory[0x8000 .. 0x8000 + program.len()].copy_from_slice(&program)`:
program bytes in the copied range, the old memory elsewhere. -/
def copyMem (c : CPU) (program : List Nat) : Nat → Nat :=
  fun a =>
    if 0x8000 ≤ a ∧ a < 0x8000 + program.length then (program.getD (a - 0x8000) 0) % 256
    else c.memory a

/-- CPU::load — copy the program into memory at 0x8000 (the slice operation
panics, i.e. `none`, when the program overruns the array), then write the
reset vector 0x8000 little-endian at 0xFFFC. -/
def load (c : CPU) (program : List Nat) : Option CPU :=
  if 0x8000 + program.length ≤ MEM_SIZE then
    memory_write_u16 { c with memory := copyMem c program } 0xFFFC 0x8000
  else
    none

/-- CPU::reset — clear `register_a`, `register_x` and `processor_status`,
then load `program_counter` from the reset vector at 0xFFFC. -/
def reset (c : CPU) : Option CPU :=
  match memory_read_u16 c 0xFFFC with
  | some pc =>
    some { c with register_a := 0, register_x := 0, processor_status := 0,
                  program_counter := pc }
  | none => none

/-- CPU::load_and_run — load, reset, execute. -/
def load_and_run (fuel : Nat) (c : CPU) (program : List Nat) : ExecResult :=
  match load c program with
  | none => ExecResult.fault RtError.outOfBounds
  | some c1 =>
    match reset c1 with
    | none => ExecResult.fault RtError.outOfBounds
    | some c2 => execute fuel c2

/-- Accumulator of a halted outcome, for stating concrete runs. -/
def haltedA : ExecResult → Option Nat
  | ExecResult.halted c => some c.register_a
  | _ => none

/-- Index register X of a halted outcome. -/
def haltedX : ExecResult → Option Nat
  | ExecResult.halted c => some c.register_x
  | _ => none

/-- Status byte of a halted outcome. -/
def haltedStatus : ExecResult → Option Nat
  | ExecResult.halted c => some c.processor_status
  | _ => none

/- Projection lemmas: the opcode handlers only touch the fields they assign. -/

@[simp] lemma lda_eq (c : CPU) (v : Nat) :
    lda c v = { c with register_a := v,
                       processor_status := flagsByte c.processor_status v } := rfl

@[simp] lemma tax_eq (c : CPU) :
    tax c = { c with register_x := c.register_a,
                     processor_status := flagsByte c.processor_status c.register_a } := rfl

@[simp] lemma inx_eq (c : CPU) :
    inx c = { c with register_x := (c.register_x + 1) % 256,
                     processor_status := flagsByte c.processor_status ((c.register_x + 1) % 256) } := rfl

/- Bit-level behaviour of `flagsByte`. -/

lemma land_two_pow_eq (r i : Nat) :
    r &&& 2 ^ i = if r.testBit i then 2 ^ i else 0 := by
  apply Nat.eq_of_testBit_eq
  intro j
  by_cases hj : j = i
  · subst hj
    cases h : r.testBit j <;>
      simp [Nat.testBit_and, h, Nat.testBit_two_pow_self]
  · cases h : r.testBit i <;>
      simp [Nat.testBit_and, Nat.testBit_two_pow, hj, Ne.symm hj]

lemma land128_ne_zero_iff (r : Nat) : r &&& 128 ≠ 0 ↔ r.testBit 7 = true := by
  have h : r &&& 128 = if r.testBit 7 then 128 else 0 := by
    have := land_two_pow_eq r 7
    norm_num at this
    exact this
  rw [h]
  cases hr : r.testBit 7 <;> simp

lemma flagsByte_testBit1 (s r : Nat) :
    (flagsByte s r).testBit 1 = decide (r = 0) := by
  simp only [flagsByte]
  by_cases hr : r = 0
  · have hc : ¬ ((0 : Nat) &&& 128 ≠ 0) := by decide
    have e2 : Nat.testBit 2 1 = true := by decide
    have e127 : Nat.testBit 127 1 = true := by decide
    subst hr
    rw [if_pos rfl, if_neg hc]
    simp [Nat.testBit_and, Nat.testBit_or, e2, e127]
  · have e253 : Nat.testBit 253 1 = false := by decide
    have e128 : Nat.testBit 128 1 = false := by decide
    have e127 : Nat.testBit 127 1 = true := by decide
    rw [if_neg hr]
    by_cases hn : r &&& 128 ≠ 0
    · rw [if_pos hn]
      simp [Nat.testBit_or, Nat.testBit_and, e253, e128, hr]
    · rw [if_neg hn]
      simp [Nat.testBit_and, e253, e127, hr]

lemma flagsByte_testBit7 (s r : Nat) :
    (flagsByte s r).testBit 7 = r.testBit 7 := by
  simp only [flagsByte]
  by_cases hn : r &&& 128 ≠ 0
  · have hb : r.testBit 7 = true := (land128_ne_zero_iff r).mp hn
    have hr : r ≠ 0 := by
      intro h0
      subst h0
      exact hn (by decide)
    have e253 : Nat.testBit 253 7 = true := by decide
    have e128 : Nat.testBit 128 7 = true := by decide
    rw [if_pos hn, if_neg hr, hb]
    simp [Nat.testBit_or, Nat.testBit_and, e128]
  · have hb : r.testBit 7 = false := by
      cases h : r.testBit 7
      · rfl
      · exact absurd ((land128_ne_zero_iff r).mpr h) hn
    have e2 : Nat.testBit 2 7 = false := by decide
    have e253 : Nat.testBit 253 7 = true := by decide
    have e127 : Nat.testBit 127 7 = false := by decide
    rw [if_neg hn, hb]
    by_cases hr : r = 0
    · rw [if_pos hr]
      simp [Nat.testBit_and, Nat.testBit_or, e2, e127]
    · rw [if_neg hr]
      simp [Nat.testBit_and, e253, e127]

lemma flagsByte_testBit_other (s r i : Nat) (hlt : i < 8) (h1 : i ≠ 1) (h7 : i ≠ 7) :
    (flagsByte s r).testBit i = s.testBit i := by
  have hmask1 : Nat.testBit 2 i = false := by
    interval_cases i <;> first | rfl | exact absurd rfl h1
  have hmask2 : Nat.testBit 253 i = true := by
    interval_cases i <;> first | rfl | exact absurd rfl h1
  have hmask3 : Nat.testBit 128 i = false := by
    interval_cases i <;> first | rfl | exact absurd rfl h7
  have hmask4 : Nat.testBit 127 i = true := by
    interval_cases i <;> first | rfl | exact absurd rfl h7
  simp only [flagsByte]
  by_cases hr : r = 0 <;> by_cases hn : r &&& 128 ≠ 0 <;>
    simp [hr, hn, Nat.testBit_or, Nat.testBit_and, hmask1, hmask2, hmask3, hmask4]

/-- C4: the flag-update operation sets status bit 1 (Zero) iff the result is 0,
sets status bit 7 (Negative) iff bit 7 of the result is set, clears them
otherwise, leaves the remaining status bits 0, 2, 3, 4, 5, 6 unchanged, and
changes no other field of the machine state. -/
theorem C4_update_flags_spec (c : CPU) (r : Nat) :
    ((update_zero_and_negative_flags c r).processor_status.testBit 1 = true ↔ r = 0) ∧
    ((update_zero_and_negative_flags c r).processor_status.testBit 7 = r.testBit 7) ∧
    (∀ i, i < 8 → i ≠ 1 → i ≠ 7 →
      (update_zero_and_negative_flags c r).processor_status.testBit i
        = c.processor_status.testBit i) ∧
    (update_zero_and_negative_flags c r).register_a = c.register_a ∧
    (update_zero_and_negative_flags c r).register_x = c.register_x ∧
    (update_zero_and_negative_flags c r).register_y = c.register_y ∧
    (update_zero_and_negative_flags c r).program_counter = c.program_counter ∧
    (update_zero_and_negative_flags c r).memory = c.memory := by
  refine ⟨?_, ?_, ?_, rfl, rfl, rfl, rfl, rfl⟩
  · show (flagsByte c.processor_status r).testBit 1 = true ↔ r = 0
    rw [flagsByte_testBit1]
    simp
  · exact flagsByte_testBit7 c.processor_status r
  · intro i hlt h1 h7
    exact flagsByte_testBit_other c.processor_status r i hlt h1 h7

/-- C4 witness: the flag update at a concrete state and result byte. -/
theorem C4_update_flags_spec_witness :
    ((update_zero_and_negative_flags CPU.new 5).processor_status.testBit 3
      = CPU.new.processor_status.testBit 3) ∧
    ((update_zero_and_negative_flags CPU.new 5).processor_status.testBit 1 = true ↔ (5 : Nat) = 0) :=
  ⟨(C4_update_flags_spec CPU.new 5).2.2.1 3 (by decide) (by decide) (by decide),
   (C4_update_flags_spec CPU.new 5).1⟩

/- Structural descriptions of `load` and `reset`. -/

/-- Memory contents after a successful `load`: the reset vector bytes at
0xFFFC/0xFFFD (written last, so they win), program bytes in the copied
range, the old memory elsewhere. -/
def loadedMem (c : CPU) (program : List Nat) : Nat → Nat :=
  fun a =>
    if a = 0xFFFD then 0x80
    else if a = 0xFFFC then 0x00
    else copyMem c program a

lemma load_eq (c : CPU) (program : List Nat) (h : 0x8000 + program.length ≤ 0xFFFF) :
    load c program = some { c with memory := loadedMem c program } := by
  unfold load
  rw [if_pos (show 0x8000 + program.length ≤ MEM_SIZE from h)]
  rfl

def resetState (c : CPU) : CPU :=
  { c with
    register_a := 0
    register_x := 0
    processor_status := 0
    program_counter := (c.memory 0xFFFD) <<< 8 ||| c.memory 0xFFFC }

lemma reset_eq (c : CPU) : reset c = some (resetState c) := rfl

/-- C6: reset clears accumulator, index_x and status, loads the instruction
pointer from the 16-bit little-endian value at the reset-vector address
0xFFFC, and leaves the whole memory array and index_y unchanged. -/
theorem C6_reset_frame (c : CPU) :
    ∃ c2, reset c = some c2 ∧
      c2.register_a = 0 ∧ c2.register_x = 0 ∧ c2.processor_status = 0 ∧
      c2.program_counter = (c.memory 0xFFFD) <<< 8 ||| c.memory 0xFFFC ∧
      c2.memory = c.memory ∧ c2.register_y = c.register_y :=
  ⟨resetState c, rfl, rfl, rfl, rfl, rfl, rfl, rfl⟩

/-- C5: for any non-empty program fitting the address space from the origin,
`load` then `reset` succeed and leave the instruction pointer at 0x8000. -/
theorem C5_reset_vector_origin (c : CPU) (program : List Nat)
    (_hne : program ≠ []) (hlen : 0x8000 + program.length ≤ 0xFFFF) :
    ∃ c1 c2, load c program = some c1 ∧ reset c1 = some c2 ∧
      c2.program_counter = 0x8000 := by
  refine ⟨_, _, load_eq c program hlen, reset_eq _, ?_⟩
  show (loadedMem c program 0xFFFD) <<< 8 ||| loadedMem c program 0xFFFC = 0x8000
  have e1 : loadedMem c program 0xFFFD = 0x80 := by simp [loadedMem]
  have e2 : loadedMem c program 0xFFFC = 0x00 := by simp [loadedMem]
  rw [e1, e2]
  decide

/-- C5 witness: a concrete three-byte program. -/
theorem C5_reset_vector_origin_witness :
    ([0xA9, 5, 0] : List Nat) ≠ [] ∧
    0x8000 + ([0xA9, 5, 0] : List Nat).length ≤ 0xFFFF ∧
    ∃ c1 c2, load CPU.new [0xA9, 5, 0] = some c1 ∧ reset c1 = some c2 ∧
      c2.program_counter = 0x8000 :=
  ⟨by decide, by decide,
   C5_reset_vector_origin CPU.new [0xA9, 5, 0] (by decide) (by decide)⟩

/-- C8: the backing store holds exactly 2^16 - 1 bytes, so byte reads succeed
exactly for addresses up to 0xFFFE; the byte read at 0xFFFF and the 16-bit
read at 0xFFFE hit the error branch of the indexing. -/
theorem C8_memory_one_byte_short (c : CPU) :
    MEM_SIZE = 2 ^ 16 - 1 ∧
    (∀ addr : Nat, (memory_read c addr).isSome = true ↔ addr ≤ 0xFFFE) ∧
    memory_read c 0xFFFF = none ∧
    memory_read_u16 c 0xFFFE = none := by
  refine ⟨by norm_num [MEM_SIZE], ?_, rfl, rfl⟩
  intro addr
  unfold memory_read MEM_SIZE
  by_cases h : addr < 0xFFFF
  · rw [if_pos h]
    simp
    omega
  · rw [if_neg h]
    simp
    omega

/-- C9: for addresses whose successor is still in range, the 16-bit read
returns `(high <<< 8) ||| low` with `low` the byte at `addr` and `high` the
byte at `addr + 1`, and the 16-bit write stores the low byte of the value at
`addr` and the high byte at `addr + 1`, touching no other cell. -/
theorem C9_little_endian_16 (c : CPU) (addr : Nat) (h : addr + 1 ≤ 0xFFFE) :
    memory_read_u16 c addr = some ((c.memory (addr + 1)) <<< 8 ||| c.memory addr) ∧
    (∀ data : Nat, ∃ c2, memory_write_u16 c addr data = some c2 ∧
      c2.memory addr = data % 256 ∧
      c2.memory (addr + 1) = data / 256 % 256 ∧
      ∀ a, a ≠ addr → a ≠ addr + 1 → c2.memory a = c.memory a) := by
  have h1 : addr < MEM_SIZE := by unfold MEM_SIZE; omega
  have h2 : addr + 1 < MEM_SIZE := by unfold MEM_SIZE; omega
  constructor
  · unfold memory_read_u16 memory_read
    rw [if_pos h1, if_pos h2]
  · intro data
    refine ⟨{ c with memory := fun a =>
        if a = addr + 1 then ((data >>> 8) % 256) % 256
        else if a = addr then (data &&& 0xff) % 256
        else c.memory a }, ?_, ?_, ?_, ?_⟩
    · unfold memory_write_u16 memory_write
      dsimp only
      rw [if_pos h1]
      dsimp only
      rw [if_pos h2]
    · show (if addr = addr + 1 then ((data >>> 8) % 256) % 256
            else if addr = addr then (data &&& 0xff) % 256
            else c.memory addr) = data % 256
      rw [if_neg (show addr ≠ addr + 1 by omega), if_pos rfl]
      have hand : data &&& 0xff = data % 256 := by
        have h8 := Nat.and_pow_two_sub_one_eq_mod data 8
        norm_num at h8
        exact h8
      rw [hand, Nat.mod_mod_of_dvd _ dvd_rfl]
    · show (if addr + 1 = addr + 1 then ((data >>> 8) % 256) % 256
            else if addr + 1 = addr then (data &&& 0xff) % 256
            else c.memory (addr + 1)) = data / 256 % 256
      rw [if_pos rfl, Nat.mod_mod_of_dvd _ dvd_rfl, Nat.shiftRight_eq_div_pow]
    · intro a ha hb
      show (if a = addr + 1 then ((data >>> 8) % 256) % 256
            else if a = addr then (data &&& 0xff) % 256
            else c.memory a) = c.memory a
      rw [if_neg hb, if_neg ha]

/-- C9 witness: 16-bit read and write at address 0x10 of the fresh machine. -/
theorem C9_little_endian_16_witness :
    (0x10 : Nat) + 1 ≤ 0xFFFE ∧
    (memory_read_u16 CPU.new 0x10
      = some ((CPU.new.memory 0x11) <<< 8 ||| CPU.new.memory 0x10) ∧
    (∀ data : Nat, ∃ c2, memory_write_u16 CPU.new 0x10 data = some c2 ∧
      c2.memory 0x10 = data % 256 ∧
      c2.memory 0x11 = data / 256 % 256 ∧
      ∀ a, a ≠ 0x10 → a ≠ 0x11 → c2.memory a = CPU.new.memory a)) :=
  ⟨by decide, C9_little_endian_16 CPU.new 0x10 (by decide)⟩

/- Helpers for reasoning about the execution loop. -/

@[simp] lemma memory_read_set_pc (c : CPU) (x addr : Nat) :
    memory_read { c with program_counter := x } addr = memory_read c addr := rfl

lemma memory_read_eq (c : CPU) (addr : Nat) (h : addr < MEM_SIZE) :
    memory_read c addr = some (c.memory addr) := by
  unfold memory_read
  rw [if_pos h]

lemma execute_step_halt (fuel : Nat) (c : CPU)
    (h : memory_read c c.program_counter = some 0x00) :
    execute (fuel + 1) c
      = ExecResult.halted { c with program_counter := c.program_counter + 1 } := by
  rw [execute, h]
  dsimp only
  rw [if_neg (by decide : ¬((0x00 : Nat) = 0xA9)), if_neg (by decide : ¬((0x00 : Nat) = 0xAA)),
      if_neg (by decide : ¬((0x00 : Nat) = 0xE8)), if_pos rfl]

lemma execute_step_lda (fuel : Nat) (c : CPU) (v : Nat)
    (h : memory_read c c.program_counter = some 0xA9)
    (hp : memory_read c (c.program_counter + 1) = some v) :
    execute (fuel + 1) c
      = execute fuel (lda { c with program_counter := c.program_counter + 1 + 1 } v) := by
  rw [execute, h]
  dsimp only
  rw [if_pos rfl, memory_read_set_pc, hp]

lemma execute_step_tax (fuel : Nat) (c : CPU)
    (h : memory_read c c.program_counter = some 0xAA) :
    execute (fuel + 1) c
      = execute fuel (tax { c with program_counter := c.program_counter + 1 }) := by
  rw [execute, h]
  dsimp only
  rw [if_neg (by decide : ¬((0xAA : Nat) = 0xA9)), if_pos rfl]

lemma execute_step_inx (fuel : Nat) (c : CPU)
    (h : memory_read c c.program_counter = some 0xE8) :
    execute (fuel + 1) c
      = execute fuel (inx { c with program_counter := c.program_counter + 1 }) := by
  rw [execute, h]
  dsimp only
  rw [if_neg (by decide : ¬((0xE8 : Nat) = 0xA9)), if_neg (by decide : ¬((0xE8 : Nat) = 0xAA)),
      if_pos rfl]

lemma execute_step_fault (fuel : Nat) (c : CPU) (op : Nat)
    (h : memory_read c c.program_counter = some op)
    (hA9 : op ≠ 0xA9) (hAA : op ≠ 0xAA) (hE8 : op ≠ 0xE8) (h00 : op ≠ 0x00) :
    execute (fuel + 1) c = ExecResult.fault RtError.unimplemented := by
  rw [execute, h]
  dsimp only
  rw [if_neg hA9, if_neg hAA, if_neg hE8, if_neg h00]

lemma execute_mono (fuel fuel' : Nat) (c d : CPU)
    (h : execute fuel c = ExecResult.halted d) (hle : fuel ≤ fuel') :
    execute fuel' c = ExecResult.halted d := by
  induction fuel generalizing fuel' c d with
  | zero => simp [execute] at h
  | succ n ih =>
    cases fuel' with
    | zero => omega
    | succ m =>
      have hnm : n ≤ m := by omega
      cases hm : memory_read c c.program_counter with
      | none => rw [execute, hm] at h; simp at h
      | some op =>
        by_cases hA9 : op = 0xA9
        · subst hA9
          cases hp : memory_read c (c.program_counter + 1) with
          | none =>
            rw [execute, hm] at h
            dsimp only at h
            rw [if_pos rfl, memory_read_set_pc, hp] at h
            simp at h
          | some v =>
            rw [execute_step_lda n c v hm hp] at h
            rw [execute_step_lda m c v hm hp]
            exact ih _ _ _ h hnm
        · by_cases hAA : op = 0xAA
          · subst hAA
            rw [execute_step_tax n c hm] at h
            rw [execute_step_tax m c hm]
            exact ih _ _ _ h hnm
          · by_cases hE8 : op = 0xE8
            · subst hE8
              rw [execute_step_inx n c hm] at h
              rw [execute_step_inx m c hm]
              exact ih _ _ _ h hnm
            · by_cases h00 : op = 0x00
              · subst h00
                rw [execute_step_halt n c hm] at h
                rw [execute_step_halt m c hm]
                exact h
              · rw [execute_step_fault n c op hm hA9 hAA hE8 h00] at h
                simp at h

lemma execute_halted_pc_lt (fuel : Nat) (c d : CPU)
    (h : execute fuel c = ExecResult.halted d) :
    c.program_counter < d.program_counter := by
  induction fuel generalizing c d with
  | zero => simp [execute] at h
  | succ n ih =>
    cases hm : memory_read c c.program_counter with
    | none => rw [execute, hm] at h; simp at h
    | some op =>
      by_cases hA9 : op = 0xA9
      · subst hA9
        cases hp : memory_read c (c.program_counter + 1) with
        | none =>
          rw [execute, hm] at h
          dsimp only at h
          rw [if_pos rfl, memory_read_set_pc, hp] at h
          simp at h
        | some v =>
          rw [execute_step_lda n c v hm hp] at h
          have := ih _ _ h
          simp at this
          omega
      · by_cases hAA : op = 0xAA
        · subst hAA
          rw [execute_step_tax n c hm] at h
          have := ih _ _ h
          simp at this
          omega
        · by_cases hE8 : op = 0xE8
          · subst hE8
            rw [execute_step_inx n c hm] at h
            have := ih _ _ h
            simp at this
            omega
          · by_cases h00 : op = 0x00
            · subst h00
              rw [execute_step_halt n c hm] at h
              injection h with h2
              rw [← h2]
              show c.program_counter < c.program_counter + 1
              omega
            · rw [execute_step_fault n c op hm hA9 hAA hE8 h00] at h
              simp at h

/-- C10: the execution loop never writes to memory — whenever `execute`
terminates in the halted state, the final memory array is the initial one. -/
theorem C10_execute_memory_frame (fuel : Nat) (c d : CPU)
    (h : execute fuel c = ExecResult.halted d) : d.memory = c.memory := by
  induction fuel generalizing c d with
  | zero => simp [execute] at h
  | succ n ih =>
    cases hm : memory_read c c.program_counter with
    | none => rw [execute, hm] at h; simp at h
    | some op =>
      by_cases hA9 : op = 0xA9
      · subst hA9
        cases hp : memory_read c (c.program_counter + 1) with
        | none =>
          rw [execute, hm] at h
          dsimp only at h
          rw [if_pos rfl, memory_read_set_pc, hp] at h
          simp at h
        | some v =>
          rw [execute_step_lda n c v hm hp] at h
          simpa using ih _ _ h
      · by_cases hAA : op = 0xAA
        · subst hAA
          rw [execute_step_tax n c hm] at h
          simpa using ih _ _ h
        · by_cases hE8 : op = 0xE8
          · subst hE8
            rw [execute_step_inx n c hm] at h
            simpa using ih _ _ h
          · by_cases h00 : op = 0x00
            · subst h00
              rw [execute_step_halt n c hm] at h
              injection h with h2
              rw [← h2]
            · rw [execute_step_fault n c op hm hA9 hAA hE8 h00] at h
              simp at h

/-- C10 witness: the fresh machine halts at once (opcode 0x00 at address 0)
and its memory is untouched. -/
theorem C10_execute_memory_frame_witness :
    execute 1 CPU.new = ExecResult.halted { CPU.new with program_counter := 1 } ∧
    ({ CPU.new with program_counter := 1 } : CPU).memory = CPU.new.memory :=
  ⟨rfl, C10_execute_memory_frame 1 CPU.new { CPU.new with program_counter := 1 } rfl⟩

/-- C2: an opcode outside the implemented set is never ignored or treated as
a no-op — the loop stops with the unimplemented-opcode fault.  However, the
fault the source produces is the `todo!()` panic, modelled by the
payload-free `RtError.unimplemented`: it carries neither the offending
opcode value nor the instruction pointer, unlike the explicit catchable
error the specification requires. -/
theorem C2_unimplemented_opcode_faults (fuel : Nat) (c : CPU) (op : Nat)
    (h : memory_read c c.program_counter = some op)
    (hA9 : op ≠ 0xA9) (hAA : op ≠ 0xAA) (hE8 : op ≠ 0xE8) (h00 : op ≠ 0x00) :
    execute (fuel + 1) c = ExecResult.fault RtError.unimplemented :=
  execute_step_fault fuel c op h hA9 hAA hE8 h00

/-- C2 witness: fetching opcode 0x02 faults immediately. -/
theorem C2_unimplemented_opcode_faults_witness :
    memory_read { CPU.new with memory := fun _ => 0x02 }
      ({ CPU.new with memory := fun _ => 0x02 } : CPU).program_counter = some 0x02 ∧
    execute 1 { CPU.new with memory := fun _ => 0x02 }
      = ExecResult.fault RtError.unimplemented :=
  ⟨rfl, C2_unimplemented_opcode_faults 0 { CPU.new with memory := fun _ => 0x02 } 0x02
    rfl (by decide) (by decide) (by decide) (by decide)⟩

/- Symbolic execution of the three-byte immediate-load program. -/

lemma ldaProg_mem0 (c : CPU) (v : Nat) :
    loadedMem c [0xA9, v, 0x00] 0x8000 = 0xA9 := by
  simp [loadedMem, copyMem]

lemma ldaProg_mem1 (c : CPU) (v : Nat) (hv : v < 256) :
    loadedMem c [0xA9, v, 0x00] 0x8001 = v := by
  simp [loadedMem, copyMem]
  omega

lemma ldaProg_mem2 (c : CPU) (v : Nat) :
    loadedMem c [0xA9, v, 0x00] 0x8002 = 0x00 := by
  simp [loadedMem, copyMem]

/-- C1: for every byte v, running `[0xA9, v, 0x00]` (from any starting
machine, with any fuel of at least two steps) halts with accumulator v, the
Zero flag set iff v = 0, and the Negative flag set iff bit 7 of v is set. -/
theorem C1_lda_immediate (c : CPU) (v : Nat) (hv : v < 256)
    (fuel : Nat) (hf : 2 ≤ fuel) :
    ∃ d, load_and_run fuel c [0xA9, v, 0x00] = ExecResult.halted d ∧
      d.register_a = v ∧
      (d.processor_status.testBit 1 = true ↔ v = 0) ∧
      d.processor_status.testBit 7 = v.testBit 7 := by
  have hlen : 0x8000 + ([0xA9, v, 0x00] : List Nat).length ≤ 0xFFFF := by simp
  have hrun : load_and_run fuel c [0xA9, v, 0x00]
      = execute fuel (resetState { c with memory := loadedMem c [0xA9, v, 0x00] }) := by
    unfold load_and_run
    rw [load_eq c _ hlen]
    dsimp only
    rw [reset_eq]
  have hS0 : resetState { c with memory := loadedMem c [0xA9, v, 0x00] }
      = (⟨0, 0, c.register_y, 0, 0x8000, loadedMem c [0xA9, v, 0x00]⟩ : CPU) := by
    have e1 : loadedMem c [0xA9, v, 0x00] 0xFFFD = 0x80 := by simp [loadedMem]
    have e2 : loadedMem c [0xA9, v, 0x00] 0xFFFC = 0x00 := by simp [loadedMem]
    have e3 : (loadedMem c [0xA9, v, 0x00] 0xFFFD) <<< 8
        ||| loadedMem c [0xA9, v, 0x00] 0xFFFC = 0x8000 := by
      rw [e1, e2]
      decide
    unfold resetState
    dsimp only
    rw [e3]
  have f0 : memory_read (⟨0, 0, c.register_y, 0, 0x8000,
      loadedMem c [0xA9, v, 0x00]⟩ : CPU) 0x8000 = some 0xA9 := by
    rw [memory_read_eq _ _ (by norm_num [MEM_SIZE])]
    show some (loadedMem c [0xA9, v, 0x00] 0x8000) = some 0xA9
    rw [ldaProg_mem0]
  have f1 : memory_read (⟨0, 0, c.register_y, 0, 0x8000,
      loadedMem c [0xA9, v, 0x00]⟩ : CPU) (0x8000 + 1) = some v := by
    rw [memory_read_eq _ _ (by norm_num [MEM_SIZE])]
    show some (loadedMem c [0xA9, v, 0x00] 0x8001) = some v
    rw [ldaProg_mem1 c v hv]
  have f2 : memory_read (⟨v, 0, c.register_y, flagsByte 0 v, 0x8002,
      loadedMem c [0xA9, v, 0x00]⟩ : CPU) 0x8002 = some 0x00 := by
    rw [memory_read_eq _ _ (by norm_num [MEM_SIZE])]
    show some (loadedMem c [0xA9, v, 0x00] 0x8002) = some 0x00
    rw [ldaProg_mem2]
  have run2 : execute 2 (⟨0, 0, c.register_y, 0, 0x8000, loadedMem c [0xA9, v, 0x00]⟩ : CPU)
      = ExecResult.halted (⟨v, 0, c.register_y, flagsByte 0 v, 0x8003,
          loadedMem c [0xA9, v, 0x00]⟩ : CPU) := by
    rw [execute_step_lda 1 _ v f0 f1]
    have hS1 : lda { (⟨0, 0, c.register_y, 0, 0x8000, loadedMem c [0xA9, v, 0x00]⟩ : CPU) with
        program_counter := 0x8000 + 1 + 1 } v
        = (⟨v, 0, c.register_y, flagsByte 0 v, 0x8002, loadedMem c [0xA9, v, 0x00]⟩ : CPU) := rfl
    rw [hS1, execute_step_halt 0 _ f2]
  refine ⟨⟨v, 0, c.register_y, flagsByte 0 v, 0x8003, loadedMem c [0xA9, v, 0x00]⟩, ?_, rfl, ?_, ?_⟩
  · rw [hrun, hS0]
    exact execute_mono 2 fuel _ _ run2 hf
  · show (flagsByte 0 v).testBit 1 = true ↔ v = 0
    rw [flagsByte_testBit1]
    simp
  · exact flagsByte_testBit7 0 v

/-- C1 witness: the concrete program `[0xA9, 0x05, 0x00]` with fuel 2. -/
theorem C1_lda_immediate_witness :
    (5 : Nat) < 256 ∧ (2 : Nat) ≤ 2 ∧
    ∃ d, load_and_run 2 CPU.new [0xA9, 5, 0x00] = ExecResult.halted d ∧
      d.register_a = 5 ∧
      (d.processor_status.testBit 1 = true ↔ (5 : Nat) = 0) ∧
      d.processor_status.testBit 7 = (5 : Nat).testBit 7 :=
  ⟨by decide, by decide, C1_lda_immediate CPU.new 5 (by decide) 2 (by decide)⟩

/-- C7: increment-index-x wraps silently modulo 256; incrementing 0xFF yields
0x00 with the Zero flag set, and the concrete run `[0xA9, 0xFF, 0xAA, 0xE8,
0x00]` ends with index_x = 0. -/
theorem C7_inx_wraparound :
    (∀ c : CPU, (inx c).register_x = (c.register_x + 1) % 256) ∧
    (∀ c : CPU, c.register_x = 0xFF →
      (inx c).register_x = 0x00 ∧ (inx c).processor_status.testBit 1 = true) ∧
    haltedX (load_and_run 4 CPU.new [0xA9, 0xFF, 0xAA, 0xE8, 0x00]) = some 0x00 := by
  refine ⟨fun c => rfl, ?_, ?_⟩
  · intro c hx
    have h256 : ((0xFF + 1) % 256 : Nat) = 0 := by norm_num
    constructor
    · show (c.register_x + 1) % 256 = 0x00
      rw [hx, h256]
    · show (flagsByte c.processor_status ((c.register_x + 1) % 256)).testBit 1 = true
      rw [hx, h256, flagsByte_testBit1]
      rfl
  · rfl

/-- C7 witness: incrementing a machine whose index_x is 0xFF. -/
theorem C7_inx_wraparound_witness :
    ({ CPU.new with register_x := 0xFF } : CPU).register_x = 0xFF ∧
    ((inx { CPU.new with register_x := 0xFF }).register_x = 0x00 ∧
     (inx { CPU.new with register_x := 0xFF }).processor_status.testBit 1 = true) :=
  ⟨rfl, C7_inx_wraparound.2.1 { CPU.new with register_x := 0xFF } rfl⟩

/- Two machines that agree on registers and on memory below a bound run in
lockstep as long as the halted run never leaves that bound. -/

lemma memory_read_congr (c1 c2 : CPU) (addr B : Nat) (hB : addr < B)
    (hmem : ∀ a, a < B → c1.memory a = c2.memory a) :
    memory_read c1 addr = memory_read c2 addr := by
  unfold memory_read
  by_cases h : addr < MEM_SIZE
  · rw [if_pos h, if_pos h, hmem addr hB]
  · rw [if_neg h, if_neg h]

lemma exec_sim (fuel : Nat) (c1 c2 d1 : CPU) (B : Nat)
    (ha : c1.register_a = c2.register_a) (hx : c1.register_x = c2.register_x)
    (hy : c1.register_y = c2.register_y) (hs : c1.processor_status = c2.processor_status)
    (hpc : c1.program_counter = c2.program_counter)
    (hmem : ∀ a, a < B → c1.memory a = c2.memory a)
    (h : execute fuel c1 = ExecResult.halted d1)
    (hB : d1.program_counter ≤ B) :
    ∃ d2, execute fuel c2 = ExecResult.halted d2 ∧
      d1.register_a = d2.register_a ∧ d1.register_x = d2.register_x ∧
      d1.register_y = d2.register_y ∧ d1.processor_status = d2.processor_status ∧
      d1.program_counter = d2.program_counter := by
  induction fuel generalizing c1 c2 d1 with
  | zero => simp [execute] at h
  | succ n ih =>
    have hlt : c1.program_counter < d1.program_counter := execute_halted_pc_lt _ _ _ h
    have hpcB : c1.program_counter < B := lt_of_lt_of_le hlt hB
    cases hm : memory_read c1 c1.program_counter with
    | none => rw [execute, hm] at h; simp at h
    | some op =>
      have hm2 : memory_read c2 c2.program_counter = some op := by
        rw [← hpc, ← memory_read_congr c1 c2 c1.program_counter B hpcB hmem]
        exact hm
      by_cases hA9 : op = 0xA9
      · subst hA9
        cases hp : memory_read c1 (c1.program_counter + 1) with
        | none =>
          rw [execute, hm] at h
          dsimp only at h
          rw [if_pos rfl, memory_read_set_pc, hp] at h
          simp at h
        | some v =>
          rw [execute_step_lda n c1 v hm hp] at h
          have hfit : c1.program_counter + 1 < B := by
            have h2 := execute_halted_pc_lt _ _ _ h
            simp at h2
            omega
          have hp2 : memory_read c2 (c2.program_counter + 1) = some v := by
            rw [← hpc, ← memory_read_congr c1 c2 (c1.program_counter + 1) B hfit hmem]
            exact hp
          rw [execute_step_lda n c2 v hm2 hp2]
          exact ih (lda { c1 with program_counter := c1.program_counter + 1 + 1 } v)
            (lda { c2 with program_counter := c2.program_counter + 1 + 1 } v) d1
            (by simp) (by simp [hx]) (by simp [hy]) (by simp [hs]) (by simp [hpc])
            (by intro a haB; simpa using hmem a haB) h hB
      · by_cases hAA : op = 0xAA
        · subst hAA
          rw [execute_step_tax n c1 hm] at h
          rw [execute_step_tax n c2 hm2]
          exact ih (tax { c1 with program_counter := c1.program_counter + 1 })
            (tax { c2 with program_counter := c2.program_counter + 1 }) d1
            (by simp [ha]) (by simp [ha]) (by simp [hy]) (by simp [hs, ha]) (by simp [hpc])
            (by intro a haB; simpa using hmem a haB) h hB
        · by_cases hE8 : op = 0xE8
          · subst hE8
            rw [execute_step_inx n c1 hm] at h
            rw [execute_step_inx n c2 hm2]
            exact ih (inx { c1 with program_counter := c1.program_counter + 1 })
              (inx { c2 with program_counter := c2.program_counter + 1 }) d1
              (by simp [ha]) (by simp [hx]) (by simp [hy]) (by simp [hs, hx]) (by simp [hpc])
              (by intro a haB; simpa using hmem a haB) h hB
          · by_cases h00 : op = 0x00
            · subst h00
              rw [execute_step_halt n c1 hm] at h
              injection h with hd
              refine ⟨{ c2 with program_counter := c2.program_counter + 1 },
                execute_step_halt n c2 hm2, ?_, ?_, ?_, ?_, ?_⟩ <;>
                rw [← hd] <;> simp [ha, hx, hy, hs, hpc]
            · rw [execute_step_fault n c1 op hm hA9 hAA hE8 h00] at h
              simp at h

lemma loadedMem_vector_hi (c : CPU) (program : List Nat) :
    loadedMem c program 0xFFFD = 0x80 := by simp [loadedMem]

lemma loadedMem_vector_lo (c : CPU) (program : List Nat) :
    loadedMem c program 0xFFFC = 0x00 := by simp [loadedMem]

lemma resetState_loaded_pc (c : CPU) (program : List Nat) :
    (resetState { c with memory := loadedMem c program }).program_counter = 0x8000 := by
  unfold resetState
  dsimp only
  rw [loadedMem_vector_hi, loadedMem_vector_lo]
  decide

lemma load_and_run_eq (fuel : Nat) (c : CPU) (program : List Nat)
    (h : 0x8000 + program.length ≤ 0xFFFF) :
    load_and_run fuel c program
      = execute fuel (resetState { c with memory := loadedMem c program }) := by
  unfold load_and_run
  rw [load_eq c _ h]
  dsimp only
  rw [reset_eq]

/-- C3 counterexample: the claim fails when the appended 0x00 is consumed as
the operand of a trailing 0xA9 in P rather than fetched as an opcode.  With
P = [0xA9] and T = [0xA9, 0x07, 0x00], both runs halt, but the run with the
trailing bytes ends with accumulator 7 while the run without them ends with
accumulator 0 — the bytes after the halt byte were interpreted. -/
theorem C3_halt_counterexample :
    haltedA (load_and_run 3 CPU.new ([0xA9] ++ [0x00] ++ [0xA9, 0x07, 0x00])) = some 0x07 ∧
    haltedA (load_and_run 3 CPU.new ([0xA9] ++ [0x00])) = some 0x00 ∧
    (0x07 : Nat) ≠ 0x00 := ⟨rfl, rfl, by decide⟩

/-- C3 (amended): if running `P ++ [0x00] ++ T` halts without the instruction
pointer ever moving past the appended halt byte (final pointer at most
0x8000 + |P| + 1), then running `P ++ [0x00]` halts with the same
accumulator, index registers, status and instruction pointer; the trailing
bytes T are never interpreted. -/
theorem C3_halt_stops_execution (c : CPU) (P T : List Nat) (fuel : Nat) (d1 : CPU)
    (h : load_and_run fuel c (P ++ [0x00] ++ T) = ExecResult.halted d1)
    (hB : d1.program_counter ≤ 0x8000 + P.length + 1) :
    ∃ d2, load_and_run fuel c (P ++ [0x00]) = ExecResult.halted d2 ∧
      d2.register_a = d1.register_a ∧ d2.register_x = d1.register_x ∧
      d2.register_y = d1.register_y ∧ d2.processor_status = d1.processor_status ∧
      d2.program_counter = d1.program_counter := by
  have hlen1 : 0x8000 + (P ++ [0x00] ++ T).length ≤ 0xFFFF := by
    by_contra hgt
    push_neg at hgt
    unfold load_and_run load at h
    rw [if_neg (by unfold MEM_SIZE; omega)] at h
    simp at h
  have hlen2 : 0x8000 + (P ++ [0x00]).length ≤ 0xFFFF := by
    simp only [List.length_append, List.length_cons, List.length_nil] at hlen1 ⊢
    omega
  rw [load_and_run_eq fuel c _ hlen1] at h
  rw [load_and_run_eq fuel c _ hlen2]
  have hag : ∀ a, a < 0x8000 + P.length + 1 →
      loadedMem c (P ++ [0x00] ++ T) a = loadedMem c (P ++ [0x00]) a := by
    intro a haB
    unfold loadedMem
    by_cases hd1 : a = 0xFFFD
    · rw [if_pos hd1, if_pos hd1]
    · rw [if_neg hd1, if_neg hd1]
      by_cases hd2 : a = 0xFFFC
      · rw [if_pos hd2, if_pos hd2]
      · rw [if_neg hd2, if_neg hd2]
        unfold copyMem
        by_cases hr : 0x8000 ≤ a
        · have hi2 : a < 0x8000 + (P ++ [0x00]).length := by
            simp only [List.length_append, List.length_cons, List.length_nil]
            omega
          have hi1 : a < 0x8000 + (P ++ [0x00] ++ T).length := by
            simp only [List.length_append, List.length_cons, List.length_nil]
            omega
          rw [if_pos ⟨hr, hi1⟩, if_pos ⟨hr, hi2⟩]
          have hidx : a - 0x8000 < (P ++ [0x00]).length := by
            simp only [List.length_append, List.length_cons, List.length_nil]
            omega
          rw [List.append_assoc] at hi1 ⊢
          rw [show (P ++ ([0x00] ++ T)) = (P ++ [0x00]) ++ T by rw [List.append_assoc]]
          rw [List.getD_append _ _ _ _ hidx]
        · have hn1 : ¬(0x8000 ≤ a ∧ a < 0x8000 + (P ++ [0x00] ++ T).length) :=
            fun hc => hr hc.1
          have hn2 : ¬(0x8000 ≤ a ∧ a < 0x8000 + (P ++ [0x00]).length) :=
            fun hc => hr hc.1
          rw [if_neg hn1, if_neg hn2]
  obtain ⟨d2, hrun2, ha2, hx2, hy2, hs2, hpc2⟩ :=
    exec_sim fuel (resetState { c with memory := loadedMem c (P ++ [0x00] ++ T) })
      (resetState { c with memory := loadedMem c (P ++ [0x00]) }) d1
      (0x8000 + P.length + 1) rfl rfl rfl rfl
      (by rw [resetState_loaded_pc, resetState_loaded_pc])
      (by intro a haB; exact hag a haB) h hB
  exact ⟨d2, hrun2, ha2.symm, hx2.symm, hy2.symm, hs2.symm, hpc2.symm⟩

/-- C3 witness: with P and T empty, the one-byte program `[0x00]` halts at
pointer 0x8001, within the bound, and the conclusion holds. -/
theorem C3_halt_stops_execution_witness :
    load_and_run 1 CPU.new (([] : List Nat) ++ [0x00] ++ ([] : List Nat))
      = ExecResult.halted (⟨0, 0, 0, 0, 0x8001, loadedMem CPU.new ([] ++ [0x00] ++ [])⟩ : CPU) ∧
    (⟨0, 0, 0, 0, 0x8001, loadedMem CPU.new ([] ++ [0x00] ++ [])⟩ : CPU).program_counter
      ≤ 0x8000 + ([] : List Nat).length + 1 ∧
    ∃ d2, load_and_run 1 CPU.new (([] : List Nat) ++ [0x00]) = ExecResult.halted d2 ∧
      d2.register_a = 0 ∧ d2.register_x = 0 ∧ d2.register_y = 0 ∧
      d2.processor_status = 0 ∧ d2.program_counter = 0x8001 := by
  refine ⟨rfl, by decide, ?_⟩
  obtain ⟨d2, h1, h2, h3, h4, h5, h6⟩ :=
    C3_halt_stops_execution CPU.new [] [] 1
      (⟨0, 0, 0, 0, 0x8001, loadedMem CPU.new ([] ++ [0x00] ++ [])⟩ : CPU) rfl (by decide)
  exact ⟨d2, h1, h2, h3, h4, h5, h6⟩
